import Mathlib

/-!
Verification of the pureMeth sample-manifest generators.

This file gives a shallow embedding of the manifest-building and
validation logic of the pureMeth repository
(`src/pureMeth/utils.py` and `create_samples_tsv.py`) and proves
properties of it.  Strings are manipulated through character lists so
that every definition evaluates inside the kernel.  The filesystem
walker (`Path.rglob` / `os.walk`) is an external collaborator: builders
receive the list of discovered entries as an argument, each entry
carrying its absolute path, its path relative to the search root, and
whether it is a regular file.  Serialization (writing YAML/TSV text) is
likewise external; builders here return the in-memory structure that
the source code hands to the serializer, or the error it raises before
reaching the serializer.
-/

set_option synthInstance.maxSize 1024

namespace PureMeth

/-- Lowercase a character list; models Python `str.lower` on the ASCII
data handled by this code base. -/
def lowerL (s : List Char) : List Char := s.map Char.toLower

/-- Substring test, models Python `pat in s` (first argument is the
pattern, second the subject). -/
def containsL (pat : List Char) : List Char → Bool
  | [] => pat.isEmpty
  | c :: rest => pat.isPrefixOf (c :: rest) || containsL pat rest

/-- Suffix of the subject starting at the first occurrence of the
pattern; models Python `s[s.find(pat):]` for a pattern known to occur
in `s`. -/
def dropToMatchL (pat : List Char) : List Char → List Char
  | [] => []
  | c :: rest => if pat.isPrefixOf (c :: rest) then c :: rest else dropToMatchL pat rest

/-- Split a character list on a separator character; models Python
`s.split(sep)` for a one-character separator (always returns at least
one piece). -/
def splitOnCharL (c : Char) : List Char → List (List Char)
  | [] => [[]]
  | a :: rest =>
    let r := splitOnCharL c rest
    if a = c then [] :: r
    else
      match r with
      | [] => [[a]]
      | h :: t => (a :: h) :: t

/-- Remove every non-overlapping occurrence of `old` (leftmost first);
models Python `s.replace(old, "")`.  The first argument is fuel, one
unit per consumed character, so that the recursion is structural and
evaluates inside the kernel. -/
def removeAllAux (old : List Char) : Nat → List Char → List Char
  | 0, s => s
  | _ + 1, [] => []
  | fuel + 1, c :: rest =>
    if old ≠ [] ∧ old.isPrefixOf (c :: rest) then
      removeAllAux old fuel (rest.drop (old.length - 1))
    else c :: removeAllAux old fuel rest

/-- Python `s.replace(old, "")`: every step of `removeAllAux` consumes
at least one character, so fuel equal to the length is exact. -/
def removeAllL (old s : List Char) : List Char := removeAllAux old s.length s

/-- Remove only the first occurrence of `old`.  Modelled from the spec:
the specification describes extension stripping as removing "the first
occurrence of `extension_to_strip` as a literal substring"; this
definition realizes that description for comparison with the source
behaviour. -/
def removeFirstL (old : List Char) : List Char → List Char
  | [] => []
  | c :: rest =>
    if old ≠ [] ∧ old.isPrefixOf (c :: rest) then rest.drop (old.length - 1)
    else c :: removeFirstL old rest

/-- Last slash-separated component of a path; models
`os.path.basename` / `Path.name` for POSIX paths. -/
def basenameStr (p : String) : String :=
  String.mk ((splitOnCharL '/' p.toList).getLastD [])

/-- Filename with its final dot-suffix removed, following the exact
rule of `pathlib.PurePath.stem`: the suffix starts at the last dot,
provided that dot is neither the first nor the last character. -/
def stemL (name : List Char) : List Char :=
  match name.reverse.findIdx? (fun c => c = '.') with
  | none => name
  | some j =>
    let i := name.length - 1 - j
    if 0 < i ∧ i < name.length - 1 then name.take i else name

/-- String version of `stemL`. -/
def stemStr (s : String) : String := String.mk (stemL s.toList)

/-- Extension normalization shared by the builders: prefix a dot when
the caller omitted it (`if not file_extension.startswith('.')`). -/
def normalizeExt (file_extension : String) : String :=
  if ('.' :: []).isPrefixOf file_extension.toList then file_extension
  else "." ++ file_extension

/-- Python `dict` assignment on an association list: overwrite in place
when the key is present, append at the end otherwise. -/
def dictInsert {β : Type} (k : String) (v : β) : List (String × β) → List (String × β)
  | [] => [(k, v)]
  | (a, b) :: rest => if a = k then (a, v) :: rest else (a, b) :: dictInsert k v rest

/-- Key membership in an association list (Python `k in d`). -/
def hasKey {β : Type} (k : String) : List (String × β) → Bool
  | [] => false
  | (a, _) :: rest => if a = k then true else hasKey k rest

/-- Lookup in an association list (Python `d[k]`, first occurrence). -/
def lookupA {β : Type} (k : String) : List (String × β) → Option β
  | [] => none
  | (a, b) :: rest => if a = k then some b else lookupA k rest

/-- Errors raised by the Python builders. -/
inductive PyErr where
  | fileNotFoundError : String → PyErr
  | valueError : String → PyErr
  | indexError : PyErr
deriving DecidableEq, Repr

instance {ε α : Type} [DecidableEq ε] [DecidableEq α] : DecidableEq (Except ε α) := fun a b =>
  match a, b with
  | .ok x, .ok y =>
    if h : x = y then isTrue (by rw [h]) else isFalse (by intro hc; cases hc; exact h rfl)
  | .error x, .error y =>
    if h : x = y then isTrue (by rw [h]) else isFalse (by intro hc; cases hc; exact h rfl)
  | .ok _, .error _ => isFalse (by intro hc; cases hc)
  | .error _, .ok _ => isFalse (by intro hc; cases hc)

/-- Recognizer for the NotFound error class (`FileNotFoundError`). -/
def isNotFoundErr {α : Type} : Except PyErr α → Bool
  | .error (.fileNotFoundError _) => true
  | _ => false

/-- One filesystem object reported by the directory walk: its absolute
path, its path relative to the search root, and whether it is a
regular file. -/
structure FsEntry where
  path : String
  rel : String
  isFile : Bool
deriving DecidableEq, Repr

/-- Filename of a walked entry (`Path.name`). -/
def FsEntry.name (e : FsEntry) : String := basenameStr e.path

/-- Extension filter applied by the walk: `Path.rglob` with the
pattern `*{ext}` keeps exactly the entries whose filename ends with
`ext`. -/
def globMatches (ext : String) (e : FsEntry) : Bool :=
  ext.toList.isSuffixOf (basenameStr e.path).toList

/-- Entries the classifier-driven builders iterate over: walk matches
that are regular files. -/
def matchingFiles (ext : String) (entries : List FsEntry) : List FsEntry :=
  entries.filter (fun e => globMatches ext e && e.isFile)

/-! ## Path Classifier (from `generate_samples_tsv`) -/

/-- Case-insensitive substring test of a pattern list against one path
segment: `any(pattern.lower() in part_lower for pattern in patterns)`. -/
def matchCond (patterns : List String) (part : String) : Bool :=
  patterns.any (fun pat => containsL (lowerL pat.toList) (lowerL part.toList))

/-- First condition (in insertion order) whose pattern list matches the
given segment, mirroring the inner loop over `condition_patterns.items()`. -/
def findCondition (condition_patterns : List (String × List String)) (part : String) :
    Option String :=
  match condition_patterns with
  | [] => none
  | (name, pats) :: rest =>
    if matchCond pats part then some name else findCondition rest part

/-- Whether any condition matches the given segment. -/
def condMatches (condition_patterns : List (String × List String)) (part : String) : Bool :=
  condition_patterns.any (fun cp => matchCond cp.2 part)

/-- Index of the first path segment matching any condition, together
with the condition assigned there; mirrors the scan that sets
`condition_index` and `condition_val`. -/
def findCondIdx (condition_patterns : List (String × List String)) :
    List String → Option (Nat × String)
  | [] => none
  | part :: rest =>
    match findCondition condition_patterns part with
    | some c => some (0, c)
    | none =>
      match findCondIdx condition_patterns rest with
      | some (i, c) => some (i + 1, c)
      | none => none

/-- The per-file classification of `generate_samples_tsv`
(`utils.py` lines 366-401): it receives the absolute path split on the
separator and the root-relative path split on the separator, and
returns `(patient, sample, condition)`. -/
def classifyTsv (condition_patterns : List (String × List String))
    (path_parts relative_path_parts : List String) : String × String × String :=
  match findCondIdx condition_patterns path_parts with
  | some (i, cname) =>
    let patient := if 1 ≤ i then path_parts.getD (i - 1) "Unknown" else "Unknown"
    let sample :=
      if i + 1 < path_parts.length - 1 then path_parts.getD (i + 1) "Unknown" else "Unknown"
    (patient, sample, cname)
  | none =>
    if 2 ≤ relative_path_parts.length then
      let patient := relative_path_parts.getD 0 "Unknown"
      let sample :=
        if 3 ≤ relative_path_parts.length then
          relative_path_parts.getD (relative_path_parts.length - 2) "Unknown"
        else "Unknown"
      (patient, sample, "Unknown")
    else ("Unknown", "Unknown", "Unknown")

/-! ### Classifier lemmas -/

theorem findCondition_isSome (cps : List (String × List String)) (part : String) :
    (findCondition cps part).isSome = condMatches cps part := by
  induction cps with
  | nil => simp [findCondition, condMatches]
  | cons cp rest ih =>
    obtain ⟨name, pats⟩ := cp
    by_cases h : matchCond pats part
    · simp [findCondition, condMatches, h]
    · simp only [findCondition, condMatches] at *
      simp [h, ih, condMatches]

theorem findCondition_eq_none (cps : List (String × List String)) (part : String)
    (h : condMatches cps part = false) : findCondition cps part = none := by
  have := findCondition_isSome cps part
  rw [h] at this
  exact Option.not_isSome_iff_eq_none.mp (by simp [this])

theorem findCondition_mem (cps : List (String × List String)) (part : String) (c : String)
    (h : findCondition cps part = some c) :
    ∃ pats, (c, pats) ∈ cps ∧ matchCond pats part = true := by
  induction cps with
  | nil => simp [findCondition] at h
  | cons cp rest ih =>
    obtain ⟨name, pats⟩ := cp
    by_cases hm : matchCond pats part
    · simp [findCondition, hm] at h
      exact ⟨pats, by simp [h], by simpa [h] using hm⟩
    · simp [findCondition, hm] at h
      obtain ⟨pats2, h1, h2⟩ := ih h
      exact ⟨pats2, by simp [h1], h2⟩

theorem findCondIdx_eq_none (cps : List (String × List String)) (parts : List String)
    (h : ∀ part ∈ parts, condMatches cps part = false) :
    findCondIdx cps parts = none := by
  induction parts with
  | nil => simp [findCondIdx]
  | cons p rest ih =>
    have hp : findCondition cps p = none :=
      findCondition_eq_none cps p (h p (by simp))
    have hr : findCondIdx cps rest = none := ih (fun q hq => h q (by simp [hq]))
    simp [findCondIdx, hp, hr]

theorem findCondIdx_spec (cps : List (String × List String)) (parts : List String) (i : Nat)
    (hi : i < parts.length)
    (hmatch : condMatches cps (parts.getD i "") = true)
    (hfirst : ∀ j, j < i → condMatches cps (parts.getD j "") = false) :
    ∃ c, findCondIdx cps parts = some (i, c) ∧
      findCondition cps (parts.getD i "") = some c := by
  induction parts generalizing i with
  | nil => simp at hi
  | cons p rest ih =>
    cases i with
    | zero =>
      have : (findCondition cps p).isSome = true := by
        rw [findCondition_isSome]
        simpa using hmatch
      obtain ⟨c, hc⟩ := Option.isSome_iff_exists.mp this
      exact ⟨c, by simp [findCondIdx, hc], by simpa using hc⟩
    | succ n =>
      have hp : findCondition cps p = none :=
        findCondition_eq_none cps p (by simpa using hfirst 0 (Nat.succ_pos n))
      have hn : n < rest.length := by simpa using hi
      have hm : condMatches cps (rest.getD n "") = true := by simpa using hmatch
      have hf : ∀ j, j < n → condMatches cps (rest.getD j "") = false := by
        intro j hj
        have := hfirst (j + 1) (by omega)
        simpa using this
      obtain ⟨c, h1, h2⟩ := ih n hn hm hf
      exact ⟨c, by simp [findCondIdx, hp, h1], by simpa using h2⟩

/-- C1: for every file path containing a segment matched
(case-insensitively) by a condition pattern, the classifier assigns the
condition of the first matching segment, takes the patient from the
segment immediately preceding that segment (sentinel `"Unknown"` when
there is none), and takes the sample from the segment immediately
following it only when at least one further segment (the filename)
follows that one, sentinel otherwise. -/
theorem claim_C1 (cps : List (String × List String)) (parts rel : List String) (i : Nat)
    (hi : i < parts.length)
    (hmatch : condMatches cps (parts.getD i "") = true)
    (hfirst : ∀ j, j < i → condMatches cps (parts.getD j "") = false) :
    (classifyTsv cps parts rel).1 =
      (if 1 ≤ i then parts.getD (i - 1) "Unknown" else "Unknown")
    ∧ (classifyTsv cps parts rel).2.1 =
      (if i + 1 < parts.length - 1 then parts.getD (i + 1) "Unknown" else "Unknown")
    ∧ ∃ pats, ((classifyTsv cps parts rel).2.2, pats) ∈ cps ∧
        matchCond pats (parts.getD i "") = true := by
  obtain ⟨c, hidx, hfc⟩ := findCondIdx_spec cps parts i hi hmatch hfirst
  obtain ⟨pats, hmem, hmc⟩ := findCondition_mem cps (parts.getD i "") c hfc
  refine ⟨?_, ?_, pats, ?_, hmc⟩
  · simp [classifyTsv, hidx]
  · simp [classifyTsv, hidx]
  · simpa [classifyTsv, hidx] using hmem

/-- Witness for C1 on the path
`/r/patient1/normal/sampleA/file.bed` with the default patterns: the
first matching segment is index 3 (`normal`), so patient is
`patient1`, sample is `sampleA`, and the assigned condition has a
matching pattern. -/
theorem claim_C1_witness :
    (classifyTsv [("Tumor", ["tumor"]), ("Normal", ["normal"])]
        ["", "r", "patient1", "normal", "sampleA", "file.bed"]
        ["patient1", "normal", "sampleA", "file.bed"]).1 =
      (if 1 ≤ 3 then ["", "r", "patient1", "normal", "sampleA", "file.bed"].getD (3 - 1) "Unknown"
       else "Unknown")
    ∧ (classifyTsv [("Tumor", ["tumor"]), ("Normal", ["normal"])]
        ["", "r", "patient1", "normal", "sampleA", "file.bed"]
        ["patient1", "normal", "sampleA", "file.bed"]).2.1 =
      (if 3 + 1 < ["", "r", "patient1", "normal", "sampleA", "file.bed"].length - 1 then
        ["", "r", "patient1", "normal", "sampleA", "file.bed"].getD (3 + 1) "Unknown"
       else "Unknown")
    ∧ ∃ pats,
        ((classifyTsv [("Tumor", ["tumor"]), ("Normal", ["normal"])]
            ["", "r", "patient1", "normal", "sampleA", "file.bed"]
            ["patient1", "normal", "sampleA", "file.bed"]).2.2, pats) ∈
          [("Tumor", ["tumor"]), ("Normal", ["normal"])] ∧
        matchCond pats
          (["", "r", "patient1", "normal", "sampleA", "file.bed"].getD 3 "") = true :=
  claim_C1 [("Tumor", ["tumor"]), ("Normal", ["normal"])]
    ["", "r", "patient1", "normal", "sampleA", "file.bed"]
    ["patient1", "normal", "sampleA", "file.bed"] 3
    (by decide) (by decide) (by decide)

/-- C2: for every file path in which no segment matches any condition
pattern, the classifier falls back to the root-relative path: with
exactly 2 segments the patient is the first segment and the sample is
the sentinel; with 3 or more segments the patient is the first segment
and the sample is the second-to-last segment; with fewer than 2
segments both are the sentinel; in all cases the condition is the
sentinel. -/
theorem claim_C2 (cps : List (String × List String)) (parts rel : List String)
    (hnone : ∀ part ∈ parts, condMatches cps part = false) :
    (rel.length < 2 → classifyTsv cps parts rel = ("Unknown", "Unknown", "Unknown"))
    ∧ (rel.length = 2 →
        classifyTsv cps parts rel = (rel.getD 0 "Unknown", "Unknown", "Unknown"))
    ∧ (3 ≤ rel.length →
        classifyTsv cps parts rel =
          (rel.getD 0 "Unknown", rel.getD (rel.length - 2) "Unknown", "Unknown")) := by
  have hidx : findCondIdx cps parts = none := findCondIdx_eq_none cps parts hnone
  refine ⟨?_, ?_, ?_⟩
  · intro h
    simp [classifyTsv, hidx]
    omega
  · intro h
    simp [classifyTsv, hidx, h]
  · intro h
    have h2 : 2 ≤ rel.length := by omega
    simp [classifyTsv, hidx, h, h2]

/-- Witness for C2: a path with no condition segment and a
root-relative path of depth 3 yields patient `patientX`, sample
`sampleD` (the parent directory), condition sentinel. -/
theorem claim_C2_witness :
    3 ≤ (["patientX", "sampleD", "file.bed"] : List String).length ∧
    classifyTsv [("Tumor", ["tumor"]), ("Normal", ["normal"])]
        ["", "r", "patientX", "sampleD", "file.bed"]
        ["patientX", "sampleD", "file.bed"] =
      (["patientX", "sampleD", "file.bed"].getD 0 "Unknown",
        ["patientX", "sampleD", "file.bed"].getD
          ((["patientX", "sampleD", "file.bed"] : List String).length - 2) "Unknown",
        "Unknown") :=
  ⟨by decide,
    (claim_C2 [("Tumor", ["tumor"]), ("Normal", ["normal"])]
      ["", "r", "patientX", "sampleD", "file.bed"]
      ["patientX", "sampleD", "file.bed"] (by decide)).2.2 (by decide)⟩

/-! ## Flat Manifest Builder (`generate_samples_yaml`) -/

/-- Lexicographic comparison of character lists; models the ordering
used by `sorted(sample_files)` (path order). -/
def strLeB : List Char → List Char → Bool
  | [], _ => true
  | _ :: _, [] => false
  | a :: as, b :: bs => if a < b then true else if b < a then false else strLeB as bs

/-- Path order on walked entries. -/
def pathLe (a b : FsEntry) : Prop := strLeB a.path.toList b.path.toList = true

instance : DecidableRel pathLe := fun a b =>
  inferInstanceAs (Decidable (strLeB a.path.toList b.path.toList = true))

/-- The flat builder (`utils.py` lines 14-83): validates the
directory, normalizes the extension, keeps walked entries whose name
ends with it and that are regular files, fails on an empty match set,
and otherwise builds the `samples` mapping stem ↦ absolute path over
the path-sorted file list (later files overwrite equal stems).
Serialization of the mapping is external and the error cases return
before any output would be written. -/
def generate_samples_yaml (directory : String) (dirExists dirIsDir : Bool)
    (file_extension : String) (entries : List FsEntry) :
    Except PyErr (List (String × String)) :=
  if !dirExists then
    .error (.fileNotFoundError ("Directory not found: " ++ directory))
  else if !dirIsDir then
    .error (.valueError ("Path is not a directory: " ++ directory))
  else
    let ext := normalizeExt file_extension
    let sample_files := matchingFiles ext entries
    if sample_files.isEmpty then
      .error (.valueError
        ("No files with extension \x27" ++ ext ++ "\x27 found in " ++ directory))
    else
      .ok ((List.insertionSort pathLe sample_files).foldl
        (fun m e => dictInsert (stemStr e.name) e.path m) [])

/-! ## Tabular Builder (`generate_samples_tsv`) -/

/-- Default condition patterns of the tabular builder. -/
def defaultConditionPatterns : List (String × List String) :=
  [("Tumor", ["tumor"]), ("Normal", ["normal"])]

/-- One TSV record `(patient, sample, condition, path)` derived from a
walked file by splitting its absolute and root-relative paths on the
separator and classifying them. -/
def tsvRow (cps : List (String × List String)) (e : FsEntry) :
    String × String × String × String :=
  let path_parts := (splitOnCharL '/' e.path.toList).map String.mk
  let relative_path_parts := (splitOnCharL '/' e.rel.toList).map String.mk
  let pcs := classifyTsv cps path_parts relative_path_parts
  (pcs.1, pcs.2.1, pcs.2.2, e.path)

/-- The tabular builder (`utils.py` lines 313-433): validates the
directory, normalizes the extension, classifies each matching regular
file into one row, and raises the empty-result error when no row was
produced (before any TSV output is written). -/
def generate_samples_tsv (directory : String) (dirExists dirIsDir : Bool)
    (file_extension : String)
    (condition_patterns : Option (List (String × List String)))
    (entries : List FsEntry) :
    Except PyErr (List (String × String × String × String)) :=
  if !dirExists then
    .error (.fileNotFoundError ("Directory not found: " ++ directory))
  else if !dirIsDir then
    .error (.valueError ("Path is not a directory: " ++ directory))
  else
    let ext := normalizeExt file_extension
    let cps := condition_patterns.getD defaultConditionPatterns
    let rows := (matchingFiles ext entries).map (tsvRow cps)
    if rows.isEmpty then
      .error (.valueError
        ("No files with extension \x27" ++ ext ++ "\x27 found in " ++ directory))
    else
      .ok rows

/-! ## Tumor/Normal Builder from explicit structure
(`generate_tumor_normal_yaml`) -/

/-- Sample name derived from a BAM path: the basename with the
extension substring removed by Python `str.replace` (which removes
every occurrence, not only a trailing one). -/
def tnSampleName (file_extension bam_path : String) : String :=
  String.mk (removeAllL file_extension.toList (basenameStr bam_path).toList)

/-- The per-condition sample map: `patient_data[sample_type]` filled by
successive dict assignments `[sample_name] = bam_path`. -/
def tnSampleMap (file_extension : String) (bam_paths : List String) :
    List (String × String) :=
  bam_paths.foldl (fun m p => dictInsert (tnSampleName file_extension p) p m) []

/-- The per-patient data: one entry per condition whose path list is
non-empty (`if bam_paths:`). -/
def tnPatientData (file_extension : String)
    (sample_types : List (String × List String)) :
    List (String × List (String × String)) :=
  sample_types.foldl
    (fun acc st =>
      if st.2.isEmpty then acc
      else dictInsert st.1 (tnSampleMap file_extension st.2) acc) []

/-- The explicit-structure tumor/normal builder (`utils.py` lines
139-210), restricted to the in-memory `SAMPLES` mapping it hands to
the serializer: every input patient receives an entry (even when all
its condition lists are empty), holding its per-condition sample
maps. -/
def generate_tumor_normal_yaml (file_extension : String)
    (patient_bams : List (String × List (String × List String))) :
    List (String × List (String × List (String × String))) :=
  patient_bams.foldl
    (fun acc pb => dictInsert pb.1 (tnPatientData file_extension pb.2) acc) []

/-! ## Tumor/Normal Builder from directory discovery
(`create_patient_bams_from_directory`) -/

/-- Per-file classification of the discovery builder (`utils.py` lines
242-259): when the filename contains the patient pattern, the patient
identifier is the first two underscore-delimited tokens of the
filename substring starting at the first pattern occurrence — indexing
the second token raises `IndexError` when it does not exist — and the
condition is TUMOR when the tumor pattern occurs in the filename, else
NORMAL when the normal pattern occurs, else the file is skipped.
Files without the patient pattern are skipped. -/
def classifyBam (patient_pattern tumor_pattern normal_pattern filename : String) :
    Except PyErr (Option (String × String)) :=
  if containsL patient_pattern.toList filename.toList then
    let patient_id_part := dropToMatchL patient_pattern.toList filename.toList
    match splitOnCharL '_' patient_id_part with
    | t0 :: t1 :: _ =>
      let patient_id := String.mk (t0 ++ '_' :: t1)
      if containsL tumor_pattern.toList filename.toList then
        .ok (some (patient_id, "TUMOR"))
      else if containsL normal_pattern.toList filename.toList then
        .ok (some (patient_id, "NORMAL"))
      else .ok none
    | _ => .error .indexError
  else .ok none

/-- Append a path under `patient_bams[patient_id][sample_type]`
(defaultdict-of-defaultdict-of-list semantics: missing keys are
appended at the end, the path list grows at its end). -/
def appendBamPath (pid cond path : String)
    (m : List (String × List (String × List String))) :
    List (String × List (String × List String)) :=
  match lookupA pid m with
  | none => m ++ [(pid, [(cond, [path])])]
  | some pdata =>
    let pdata2 :=
      match lookupA cond pdata with
      | none => pdata ++ [(cond, [path])]
      | some paths => dictInsert cond (paths ++ [path]) pdata
    dictInsert pid pdata2 m

/-- Loop of the discovery builder over the walked BAM files; an
`IndexError` from the per-file classification aborts the whole
builder. -/
def cpbLoop (patient_pattern tumor_pattern normal_pattern : String) :
    List FsEntry → List (String × List (String × List String)) →
    Except PyErr (List (String × List (String × List String)))
  | [], acc => .ok acc
  | e :: rest, acc =>
    match classifyBam patient_pattern tumor_pattern normal_pattern e.name with
    | .error err => .error err
    | .ok none => cpbLoop patient_pattern tumor_pattern normal_pattern rest acc
    | .ok (some pc) =>
      cpbLoop patient_pattern tumor_pattern normal_pattern rest
        (appendBamPath pc.1 pc.2 e.path acc)

/-- The discovery builder (`utils.py` lines 213-263): checks the
directory exists, takes every walked entry whose name ends with the
extension (no regular-file check in the source), and groups them by
extracted patient and condition. -/
def create_patient_bams_from_directory (directory : String) (dirExists : Bool)
    (patient_pattern tumor_pattern normal_pattern file_extension : String)
    (entries : List FsEntry) :
    Except PyErr (List (String × List (String × List String))) :=
  if !dirExists then
    .error (.fileNotFoundError ("Directory not found: " ++ directory))
  else
    cpbLoop patient_pattern tumor_pattern normal_pattern
      (entries.filter (fun e => globMatches file_extension e)) []

/-! ## Nested Builder (`create_patient_samples_from_directory`) -/

/-- Python truthiness of a string. -/
def truthy (s : String) : Bool := s != ""

/-- Python truthiness of an optional string (`None` and `""` are
falsy). -/
def truthyOpt : Option String → Bool
  | none => false
  | some s => truthy s

/-- Scan state carried through the condition-search loop of the nested
builder: patient and condition start as `None`, the sample starts as
the file stem. -/
structure NestedScanState where
  patient : Option String
  condition : Option String
  sample : String
deriving DecidableEq, Repr

/-- The condition-search loop of the nested builder (`utils.py` lines
482-499).  On a matching segment the state is updated and the loop
stops only when the assigned condition name is truthy (`if condition:
break`), matching the source exactly. -/
def nestedScan (cps : List (String × List String)) (path_parts : List String) :
    List String → Nat → NestedScanState → NestedScanState
  | [], _, st => st
  | part :: rest, i, st =>
    match findCondition cps part with
    | none => nestedScan cps path_parts rest (i + 1) st
    | some cname =>
      let st2 : NestedScanState :=
        { patient := if 1 ≤ i then some (path_parts.getD (i - 1) "") else st.patient
          condition := some cname
          sample :=
            if i + 1 < path_parts.length - 1 then path_parts.getD (i + 1) ""
            else st.sample }
      if truthy cname then st2 else nestedScan cps path_parts rest (i + 1) st2

/-- Per-file classification of the nested builder (`utils.py` lines
472-510): run the condition scan, then the patient-pattern fallback
(`if patient_pattern and not patient:` pick the first segment
containing the pattern), and keep the record only when patient and
condition are both truthy. -/
def classifyNested (cps : List (String × List String))
    (patient_pattern : Option String) (full_path : String) :
    Option (String × String × String) :=
  let path_parts := (splitOnCharL '/' full_path.toList).map String.mk
  let stem := stemStr (basenameStr full_path)
  let st := nestedScan cps path_parts path_parts 0
    { patient := none, condition := none, sample := stem }
  let patient :=
    if truthyOpt patient_pattern && !truthyOpt st.patient then
      match path_parts.find?
          (fun part => containsL (patient_pattern.getD "").toList part.toList) with
      | some part => some part
      | none => st.patient
    else st.patient
  if truthyOpt patient && truthyOpt st.condition then
    some (patient.getD "", (st.condition).getD "", st.sample)
  else none

/-- Triple-nested insertion
`patient_samples[patient][condition][sample] = full_path` with
defaultdict semantics. -/
def insertNestedSample (pid cond samp path : String)
    (m : List (String × List (String × List (String × String)))) :
    List (String × List (String × List (String × String))) :=
  match lookupA pid m with
  | none => m ++ [(pid, [(cond, [(samp, path)])])]
  | some pdata =>
    let pdata2 :=
      match lookupA cond pdata with
      | none => pdata ++ [(cond, [(samp, path)])]
      | some smap => dictInsert cond (dictInsert samp path smap) pdata
    dictInsert pid pdata2 m

/-- The nested builder (`utils.py` lines 436-512): checks the
directory exists, normalizes the extension, classifies each matching
regular file, and inserts only records with truthy patient and
condition. -/
def create_patient_samples_from_directory (directory : String) (dirExists : Bool)
    (file_extension : String) (patient_pattern : Option String)
    (condition_patterns : Option (List (String × List String)))
    (entries : List FsEntry) :
    Except PyErr (List (String × List (String × List (String × String)))) :=
  if !dirExists then
    .error (.fileNotFoundError ("Directory not found: " ++ directory))
  else
    let ext := normalizeExt file_extension
    let cps := condition_patterns.getD [("TUMOR", ["tumor"]), ("NORMAL", ["normal"])]
    .ok ((matchingFiles ext entries).foldl
      (fun acc e =>
        match classifyNested cps patient_pattern e.path with
        | some r => insertNestedSample r.1 r.2.1 r.2.2 e.path acc
        | none => acc) [])

/-! ## Validators -/

/-- A deserialized YAML value as far as the validators inspect it:
a string, a mapping with string keys, or anything else. -/
inductive YVal where
  | str : String → YVal
  | dict : List (String × YVal) → YVal
  | other : YVal

/-- Whether a YAML value is a string. -/
def isStrVal : YVal → Bool
  | .str _ => true
  | _ => false

/-- Innermost loop of the flat validator: warn for each referenced
path missing on disk; constructing a path from a non-string value
raises (caught by the outer handler), making the validator fail.
Returns the success flag and the warnings printed. -/
def flatSampleCheck (ex : String → Bool) : List (String × YVal) → Bool × List String
  | [] => (true, [])
  | (_, v) :: rest =>
    match v with
    | .str p =>
      let r := flatSampleCheck ex rest
      (r.1, (if ex p then [] else ["Warning: Sample file not found: " ++ p]) ++ r.2)
    | _ => (false, [])

/-- The flat validator (`utils.py` lines 104-136) applied to the
already-loaded document (`.error` models an exception while
reading/parsing): checks `data` is a mapping containing the key
`samples` whose value is a mapping, then runs the advisory
file-existence loop.  Returns the success flag and the warnings
printed. -/
def validate_samples_yaml (ex : String → Bool) (loaded : Except String YVal) :
    Bool × List String :=
  match loaded with
  | .error _ => (false, [])
  | .ok d =>
    match d with
    | .dict entries =>
      match lookupA "samples" entries with
      | some (.dict samples) => flatSampleCheck ex samples
      | some _ => (false, [])
      | none => (false, [])
    | _ => (false, [])

/-- Innermost loop of the tumor/normal validator over one condition's
sample map, as in `flatSampleCheck`. -/
def tnSampleCheck (ex : String → Bool) : List (String × YVal) → Bool × List String
  | [] => (true, [])
  | (_, v) :: rest =>
    match v with
    | .str p =>
      let r := tnSampleCheck ex rest
      (r.1, (if ex p then [] else ["Warning: Sample file not found: " ++ p]) ++ r.2)
    | _ => (false, [])

/-- Middle loop of the tumor/normal validator over one patient's
condition map: a label outside TUMOR/NORMAL only warns, a non-mapping
value fails. -/
def tnCondCheck (ex : String → Bool) (patient_id : String) :
    List (String × YVal) → Bool × List String
  | [] => (true, [])
  | (sample_type, v) :: rest =>
    let w0 :=
      if sample_type = "TUMOR" ∨ sample_type = "NORMAL" then ([] : List String)
      else ["Warning: Unexpected sample type \x27" ++ sample_type ++
        "\x27 for patient " ++ patient_id]
    match v with
    | .dict samples =>
      let r1 := tnSampleCheck ex samples
      if r1.1 then
        let r2 := tnCondCheck ex patient_id rest
        (r2.1, w0 ++ r1.2 ++ r2.2)
      else (false, w0 ++ r1.2)
    | _ => (false, w0)

/-- Outer loop of the tumor/normal validator over the patients: a
non-mapping patient value fails. -/
def tnPatientCheck (ex : String → Bool) : List (String × YVal) → Bool × List String
  | [] => (true, [])
  | (patient_id, v) :: rest =>
    match v with
    | .dict pdata =>
      let r1 := tnCondCheck ex patient_id pdata
      if r1.1 then
        let r2 := tnPatientCheck ex rest
        (r2.1, r1.2 ++ r2.2)
      else (false, r1.2)
    | _ => (false, [])

/-- The tumor/normal validator (`utils.py` lines 266-310) applied to
the already-loaded document: checks `data` is a mapping containing the
key `SAMPLES` whose value is a mapping, then the per-patient loops.
Returns the success flag and the warnings printed. -/
def validate_tumor_normal_yaml (ex : String → Bool) (loaded : Except String YVal) :
    Bool × List String :=
  match loaded with
  | .error _ => (false, [])
  | .ok d =>
    match d with
    | .dict entries =>
      match lookupA "SAMPLES" entries with
      | some (.dict patients) => tnPatientCheck ex patients
      | some _ => (false, [])
      | none => (false, [])
    | _ => (false, [])

/-- Structural characterization of flat-validator success: the
document loaded, is a mapping with a `samples` mapping, and every
sample value is a string (a non-string leaf raises inside the
validator). -/
def structOkFlat : Except String YVal → Bool
  | .error _ => false
  | .ok (.dict entries) =>
    match lookupA "samples" entries with
    | some (.dict samples) => samples.all (fun kv => isStrVal kv.2)
    | _ => false
  | .ok _ => false

/-- Structural characterization of tumor/normal-validator success:
maps at all four levels and string leaves. -/
def structOkTN : Except String YVal → Bool
  | .error _ => false
  | .ok (.dict entries) =>
    match lookupA "SAMPLES" entries with
    | some (.dict patients) =>
      patients.all (fun pkv =>
        match pkv.2 with
        | .dict pdata =>
          pdata.all (fun ckv =>
            match ckv.2 with
            | .dict samples => samples.all (fun skv => isStrVal skv.2)
            | _ => false)
        | _ => false)
    | _ => false
  | .ok _ => false

/-- Modelled from the spec: the claim counts as structural violations
only a missing top-level key or a required level not being a mapping;
leaf values are unconstrained. -/
def claimStructOkTN : Except String YVal → Bool
  | .error _ => false
  | .ok (.dict entries) =>
    match lookupA "SAMPLES" entries with
    | some (.dict patients) =>
      patients.all (fun pkv =>
        match pkv.2 with
        | .dict pdata =>
          pdata.all (fun ckv =>
            match ckv.2 with
            | .dict _ => true
            | _ => false)
        | _ => false)
    | _ => false
  | .ok _ => false

/-! ## Association-list lemmas -/

theorem dictInsert_ne_nil {β : Type} (k : String) (v : β) (m : List (String × β)) :
    dictInsert k v m ≠ [] := by
  cases m with
  | nil => simp [dictInsert]
  | cons e rest =>
    obtain ⟨a, b⟩ := e
    by_cases h : a = k <;> simp [dictInsert, h]

theorem mem_dictInsert {β : Type} {k a : String} {v b : β} {m : List (String × β)}
    (h : (a, b) ∈ dictInsert k v m) : (a = k ∧ b = v) ∨ (a, b) ∈ m := by
  induction m with
  | nil =>
    simp [dictInsert] at h
    exact Or.inl h
  | cons e rest ih =>
    obtain ⟨x, y⟩ := e
    by_cases hx : x = k
    · simp only [dictInsert, if_pos hx, List.mem_cons] at h
      rcases h with h | h
      · exact Or.inl ⟨by rw [(Prod.mk.injEq _ _ _ _).mp h |>.1, hx],
          (Prod.mk.injEq _ _ _ _).mp h |>.2⟩
      · exact Or.inr (List.mem_cons_of_mem _ h)
    · simp only [dictInsert, if_neg hx, List.mem_cons] at h
      rcases h with h | h
      · exact Or.inr (List.mem_cons.mpr (Or.inl h))
      · rcases ih h with h2 | h2
        · exact Or.inl h2
        · exact Or.inr (List.mem_cons_of_mem _ h2)

theorem mem_foldl_dictInsert {α β : Type} (f : α → String) (g : α → β)
    (xs : List α) (m0 : List (String × β)) {k : String} {v : β}
    (h : (k, v) ∈ xs.foldl (fun m x => dictInsert (f x) (g x) m) m0) :
    (k, v) ∈ m0 ∨ ∃ x ∈ xs, k = f x ∧ v = g x := by
  induction xs generalizing m0 with
  | nil => exact Or.inl (by simpa using h)
  | cons x rest ih =>
    simp only [List.foldl_cons] at h
    rcases ih (dictInsert (f x) (g x) m0) h with h1 | h1
    · rcases mem_dictInsert h1 with ⟨hk, hv⟩ | h2
      · exact Or.inr ⟨x, by simp, hk, hv⟩
      · exact Or.inl h2
    · obtain ⟨y, hy, hk, hv⟩ := h1
      exact Or.inr ⟨y, by simp [hy], hk, hv⟩

theorem foldl_dictInsert_ne_nil {α β : Type} (f : α → String) (g : α → β)
    (xs : List α) (m0 : List (String × β)) (h : m0 ≠ [] ∨ xs ≠ []) :
    xs.foldl (fun m x => dictInsert (f x) (g x) m) m0 ≠ [] := by
  induction xs generalizing m0 with
  | nil =>
    rcases h with h | h
    · simpa using h
    · simp at h
  | cons x rest ih =>
    simp only [List.foldl_cons]
    exact ih (dictInsert (f x) (g x) m0) (Or.inl (dictInsert_ne_nil _ _ _))

theorem hasKey_dictInsert {β : Type} (k k0 : String) (v : β) (m : List (String × β)) :
    hasKey k (dictInsert k0 v m) = (decide (k0 = k) || hasKey k m) := by
  induction m with
  | nil =>
    simp only [dictInsert, hasKey]
    by_cases h : k0 = k <;> simp [h]
  | cons e rest ih =>
    obtain ⟨a, b⟩ := e
    by_cases ha : a = k0
    · subst ha
      simp only [dictInsert, if_pos rfl, hasKey]
      by_cases hk : a = k <;> simp [hk]
    · simp only [dictInsert, if_neg ha, hasKey]
      by_cases hk : a = k
      · subst hk
        by_cases h0 : k0 = a <;> simp [h0, ha]
      · simp [hk, ih]

theorem hasKey_eq_any {β : Type} (k : String) (m : List (String × β)) :
    hasKey k m = m.any (fun e => decide (e.1 = k)) := by
  induction m with
  | nil => simp [hasKey]
  | cons e rest ih =>
    obtain ⟨a, b⟩ := e
    by_cases h : a = k <;> simp [hasKey, h, ih]

theorem hasKey_foldl_dictInsert {α β : Type} (f : α → String) (g : α → β)
    (xs : List α) (m0 : List (String × β)) (k : String) :
    hasKey k (xs.foldl (fun m x => dictInsert (f x) (g x) m) m0) =
      (hasKey k m0 || xs.any (fun x => decide (f x = k))) := by
  induction xs generalizing m0 with
  | nil => simp
  | cons x rest ih =>
    simp only [List.foldl_cons, List.any_cons]
    rw [ih, hasKey_dictInsert]
    cases decide (f x = k) <;> cases hasKey k m0 <;> simp

theorem lookupA_mem {β : Type} {k : String} {v : β} {m : List (String × β)}
    (h : lookupA k m = some v) : (k, v) ∈ m := by
  induction m with
  | nil => simp [lookupA] at h
  | cons e rest ih =>
    obtain ⟨a, b⟩ := e
    by_cases ha : a = k
    · simp only [lookupA, if_pos ha] at h
      subst ha
      injection h with h2
      simp [h2]
    · simp only [lookupA, if_neg ha] at h
      exact List.mem_cons_of_mem _ (ih h)

/-! ## Lemmas on the explicit-structure tumor/normal builder -/

theorem mem_tnPatientDataAux (file_extension : String)
    (sts : List (String × List String)) (acc : List (String × List (String × String)))
    {cond : String} {cmap : List (String × String)}
    (h : (cond, cmap) ∈ sts.foldl
      (fun acc st =>
        if st.2.isEmpty then acc
        else dictInsert st.1 (tnSampleMap file_extension st.2) acc) acc) :
    (cond, cmap) ∈ acc ∨
      ∃ st ∈ sts, st.2 ≠ [] ∧ cond = st.1 ∧ cmap = tnSampleMap file_extension st.2 := by
  induction sts generalizing acc with
  | nil => exact Or.inl (by simpa using h)
  | cons st rest ih =>
    simp only [List.foldl_cons] at h
    by_cases he : st.2.isEmpty
    · rw [if_pos he] at h
      rcases ih acc h with h1 | ⟨q, hq, h2⟩
      · exact Or.inl h1
      · exact Or.inr ⟨q, by simp [hq], h2⟩
    · rw [if_neg he] at h
      rcases ih _ h with h1 | ⟨q, hq, h2⟩
      · rcases mem_dictInsert h1 with ⟨hk, hv⟩ | h2
        · exact Or.inr ⟨st, by simp, by simpa using he, hk, hv⟩
        · exact Or.inl h2
      · exact Or.inr ⟨q, by simp [hq], h2⟩

theorem mem_tnPatientData (file_extension : String)
    (sample_types : List (String × List String))
    {cond : String} {cmap : List (String × String)}
    (h : (cond, cmap) ∈ tnPatientData file_extension sample_types) :
    ∃ st ∈ sample_types, st.2 ≠ [] ∧ cond = st.1 ∧
      cmap = tnSampleMap file_extension st.2 := by
  rcases mem_tnPatientDataAux file_extension sample_types [] h with h1 | h1
  · simp at h1
  · exact h1

theorem tnSampleMap_ne_nil (file_extension : String) (bam_paths : List String)
    (h : bam_paths ≠ []) : tnSampleMap file_extension bam_paths ≠ [] :=
  foldl_dictInsert_ne_nil _ _ bam_paths [] (Or.inr h)

/-- C3 counterexample: Python `str.replace` removes every occurrence of
the extension substring, not only the first one.  On the path
`/d/A.sorted.bam.sorted.bam` the builder derives the sample name `A`,
while removing only the first occurrence (as the claim states) would
leave `A.sorted.bam`. -/
theorem claim_C3_counterexample :
    generate_tumor_normal_yaml ".sorted.bam"
        [("P", [("TUMOR", ["/d/A.sorted.bam.sorted.bam"])])] =
      [("P", [("TUMOR", [("A", "/d/A.sorted.bam.sorted.bam")])])]
    ∧ String.mk (removeFirstL ".sorted.bam".toList "A.sorted.bam.sorted.bam".toList) =
      "A.sorted.bam"
    ∧ ("A" : String) ≠ "A.sorted.bam" := by
  refine ⟨by decide, by decide, by decide⟩

/-- C3 amended: in the tumor/normal builder from explicit structure,
for every path in every non-empty condition list, the derived sample
name equals the path's filename with every non-overlapping occurrence
of the `extension_to_strip` substring removed (leftmost first), i.e.
Python `filename.replace(extension_to_strip, "")`. -/
theorem claim_C3_amended (file_extension : String)
    (patient_bams : List (String × List (String × List String)))
    (pid : String) (pdata : List (String × List (String × String)))
    (cond : String) (cmap : List (String × String)) (sname p : String)
    (h1 : (pid, pdata) ∈ generate_tumor_normal_yaml file_extension patient_bams)
    (h2 : (cond, cmap) ∈ pdata)
    (h3 : (sname, p) ∈ cmap) :
    sname = String.mk (removeAllL file_extension.toList (basenameStr p).toList) := by
  rcases mem_foldl_dictInsert (fun pb => pb.1)
      (fun pb => tnPatientData file_extension pb.2) patient_bams [] h1 with h | h
  · simp at h
  obtain ⟨pb, _, _, hv⟩ := h
  rw [hv] at h2
  obtain ⟨st, _, _, _, hcv⟩ := mem_tnPatientData file_extension pb.2 h2
  rw [hcv] at h3
  rcases mem_foldl_dictInsert (fun q => tnSampleName file_extension q)
      (fun q => q) st.2 [] h3 with h | h
  · simp at h
  obtain ⟨q, _, hk2, hv2⟩ := h
  rw [hk2, hv2]
  rfl

/-- Witness for C3 amended at a concrete input: the single entry of
the output maps `xy` to `/d/xy.bam`, and `xy` is the basename with
every occurrence of `.bam` removed. -/
theorem claim_C3_amended_witness :
    ("xy" : String) =
      String.mk (removeAllL ".bam".toList (basenameStr "/d/xy.bam").toList) :=
  claim_C3_amended ".bam" [("P", [("TUMOR", ["/d/xy.bam"])])]
    "P" [("TUMOR", [("xy", "/d/xy.bam")])] "TUMOR" [("xy", "/d/xy.bam")]
    "xy" "/d/xy.bam" (by decide) (by decide) (by decide)

/-! ## Invariants of the nested outputs (C4) -/

/-- Invariant of the nested patient-samples map: every patient entry
is non-empty and every condition sub-map is non-empty. -/
def nestedOk (m : List (String × List (String × List (String × String)))) : Prop :=
  ∀ pid pdata, (pid, pdata) ∈ m →
    pdata ≠ [] ∧ ∀ cond cmap, (cond, cmap) ∈ pdata → cmap ≠ []

theorem nestedOk_insert (pid cond samp path : String)
    (m : List (String × List (String × List (String × String))))
    (h : nestedOk m) : nestedOk (insertNestedSample pid cond samp path m) := by
  unfold insertNestedSample
  cases hl : lookupA pid m with
  | none =>
    intro p q hmem
    rcases List.mem_append.mp hmem with hmem | hmem
    · exact h p q hmem
    · simp at hmem
      refine ⟨by simp [hmem.2], ?_⟩
      intro c cm hcm
      rw [hmem.2] at hcm
      simp at hcm
      simp [hcm.2]
  | some pdata =>
    have hpd := h pid pdata (lookupA_mem hl)
    intro p q hmem
    rcases mem_dictInsert hmem with ⟨_, hq⟩ | hmem2
    · subst hq
      cases hc : lookupA cond pdata with
      | none =>
        simp only [hc]
        refine ⟨by simp [hpd.1], ?_⟩
        intro c cm hcm
        rcases List.mem_append.mp hcm with hcm | hcm
        · exact hpd.2 c cm hcm
        · simp at hcm
          simp [hcm.2]
      | some smap =>
        simp only [hc]
        refine ⟨dictInsert_ne_nil _ _ _, ?_⟩
        intro c cm hcm
        rcases mem_dictInsert hcm with ⟨_, hcv⟩ | hcm2
        · rw [hcv]
          exact dictInsert_ne_nil _ _ _
        · exact hpd.2 c cm hcm2
    · exact h p q hmem2

theorem nestedOk_foldl (cps : List (String × List String)) (ppat : Option String)
    (files : List FsEntry)
    (acc : List (String × List (String × List (String × String))))
    (hacc : nestedOk acc) :
    nestedOk (files.foldl
      (fun acc e =>
        match classifyNested cps ppat e.path with
        | some r => insertNestedSample r.1 r.2.1 r.2.2 e.path acc
        | none => acc) acc) := by
  induction files generalizing acc with
  | nil => simpa using hacc
  | cons e rest ih =>
    simp only [List.foldl_cons]
    cases hcl : classifyNested cps ppat e.path with
    | none => exact ih acc hacc
    | some r => exact ih _ (nestedOk_insert _ _ _ _ acc hacc)

/-- C4 counterexample: a patient all of whose condition lists are
empty still receives an entry (with an empty sub-map) in the output of
the explicit-structure builder, so a patient key can be present with
no classified file under it, contrary to the claim. -/
theorem claim_C4_counterexample :
    hasKey "P1" (generate_tumor_normal_yaml ".sorted.bam" [("P1", [("TUMOR", [])])]) = true
    ∧ lookupA "P1" (generate_tumor_normal_yaml ".sorted.bam" [("P1", [("TUMOR", [])])]) =
      some [] := by
  refine ⟨by decide, by decide⟩

/-- C4 amended: every condition sub-map present in either builder's
output is non-empty, but the two builders differ at the patient level:
the explicit-structure builder emits a patient key exactly when the key
is present in its input — even when all of that patient's condition
lists are empty, in which case the patient maps to an empty sub-map —
while the directory-discovery nested builder emits a patient key only
when at least one file was classified under it (every patient entry is
non-empty). -/
theorem claim_C4_amended :
    (∀ (file_extension : String)
      (patient_bams : List (String × List (String × List String)))
      (pid : String) (pdata : List (String × List (String × String)))
      (cond : String) (cmap : List (String × String)),
      (pid, pdata) ∈ generate_tumor_normal_yaml file_extension patient_bams →
      (cond, cmap) ∈ pdata → cmap ≠ [])
    ∧ (∀ (file_extension : String)
        (patient_bams : List (String × List (String × List String))) (pid : String),
        hasKey pid (generate_tumor_normal_yaml file_extension patient_bams) =
          hasKey pid patient_bams)
    ∧ (∀ (directory file_extension : String) (dirExists : Bool)
        (patient_pattern : Option String)
        (condition_patterns : Option (List (String × List String)))
        (entries : List FsEntry)
        (m : List (String × List (String × List (String × String)))),
        create_patient_samples_from_directory directory dirExists file_extension
          patient_pattern condition_patterns entries = .ok m →
        nestedOk m) := by
  refine ⟨?_, ?_, ?_⟩
  · intro file_extension patient_bams pid pdata cond cmap h1 h2
    rcases mem_foldl_dictInsert (fun pb => pb.1)
        (fun pb => tnPatientData file_extension pb.2) patient_bams [] h1 with h | h
    · simp at h
    obtain ⟨pb, _, _, hv⟩ := h
    rw [hv] at h2
    obtain ⟨st, _, hne, _, hcv⟩ := mem_tnPatientData file_extension pb.2 h2
    rw [hcv]
    exact tnSampleMap_ne_nil file_extension st.2 hne
  · intro file_extension patient_bams pid
    rw [generate_tumor_normal_yaml,
      hasKey_foldl_dictInsert (fun pb => pb.1)
        (fun pb => tnPatientData file_extension pb.2) patient_bams [] pid,
      hasKey_eq_any pid patient_bams]
    simp [hasKey]
  · intro directory file_extension dirExists patient_pattern condition_patterns entries m h
    cases dirExists with
    | false => simp [create_patient_samples_from_directory] at h
    | true =>
      simp only [create_patient_samples_from_directory, Bool.not_true, Bool.false_eq_true,
        if_false, Except.ok.injEq] at h
      rw [← h]
      exact nestedOk_foldl _ _ _ [] (by intro p q hq; simp at hq)

/-- Witness for C4 amended: the non-emptiness facts instantiated on
concrete builder runs. -/
theorem claim_C4_amended_witness :
    (([("x", "/a/x.bam")] : List (String × String)) ≠ [])
    ∧ (([("TUMOR", [("f", "/r/p/tumor/f.bed")])] :
        List (String × List (String × String))) ≠ [] ∧
        ∀ cond cmap, (cond, cmap) ∈
          ([("TUMOR", [("f", "/r/p/tumor/f.bed")])] :
            List (String × List (String × String))) → cmap ≠ []) :=
  ⟨claim_C4_amended.1 ".bam" [("P", [("TUMOR", ["/a/x.bam"])])]
      "P" [("TUMOR", [("x", "/a/x.bam")])] "TUMOR" [("x", "/a/x.bam")]
      (by decide) (by decide),
    claim_C4_amended.2.2 "/r" ".bed" true none none
      [⟨"/r/p/tumor/f.bed", "", true⟩]
      [("p", [("TUMOR", [("f", "/r/p/tumor/f.bed")])])]
      (by decide) "p" [("TUMOR", [("f", "/r/p/tumor/f.bed")])] (by decide)⟩

/-! ## Error behaviour of the walk-driven builders (C5, C6) -/

/-- C5: whenever the directory checks pass but no walked regular file
matches the normalized extension, the tabular builder produces zero
records and raises the empty-result `ValueError`; the error is
returned before any TSV output would be written. -/
theorem claim_C5 (directory file_extension : String)
    (condition_patterns : Option (List (String × List String)))
    (entries : List FsEntry)
    (hempty : matchingFiles (normalizeExt file_extension) entries = []) :
    generate_samples_tsv directory true true file_extension condition_patterns entries =
      .error (.valueError
        ("No files with extension \x27" ++ normalizeExt file_extension ++
          "\x27 found in " ++ directory)) := by
  simp [generate_samples_tsv, hempty]

/-- Witness for C5: no `.txt` file matches the `.bed` extension, so
the builder fails with the empty-result error. -/
theorem claim_C5_witness :
    generate_samples_tsv "/r" true true ".bed" none [⟨"/r/x.txt", "x.txt", true⟩] =
      .error (.valueError
        ("No files with extension \x27" ++ normalizeExt ".bed" ++
          "\x27 found in /r")) :=
  claim_C5 "/r" ".bed" none [⟨"/r/x.txt", "x.txt", true⟩] (by decide)

/-- C6 counterexample: on a path that exists but is not a directory
the flat builder raises `ValueError("Path is not a directory: ...")`,
which is not the NotFound error class (`FileNotFoundError`) the claim
prescribes for this case. -/
theorem claim_C6_counterexample :
    generate_samples_yaml "/data" true false ".bed" [] =
      .error (.valueError "Path is not a directory: /data")
    ∧ isNotFoundErr (generate_samples_yaml "/data" true false ".bed" []) = false := by
  refine ⟨by decide, by decide⟩

/-- C6 amended: the flat builder fails with the NotFound error
(`FileNotFoundError`) when the directory does not exist, with a
`ValueError` (the same class as the empty-result error, not NotFound)
when the path exists but is not a directory, and with the empty-result
`ValueError` when the directory is fine but no walked regular file
matches the normalized extension; each failure is returned before any
output is written. -/
theorem claim_C6_amended (directory file_extension : String)
    (dirExists dirIsDir : Bool) (entries : List FsEntry) :
    (dirExists = false →
      generate_samples_yaml directory dirExists dirIsDir file_extension entries =
        .error (.fileNotFoundError ("Directory not found: " ++ directory)))
    ∧ (dirExists = true → dirIsDir = false →
      generate_samples_yaml directory dirExists dirIsDir file_extension entries =
        .error (.valueError ("Path is not a directory: " ++ directory)))
    ∧ (dirExists = true → dirIsDir = true →
      matchingFiles (normalizeExt file_extension) entries = [] →
      generate_samples_yaml directory dirExists dirIsDir file_extension entries =
        .error (.valueError
          ("No files with extension \x27" ++ normalizeExt file_extension ++
            "\x27 found in " ++ directory))) := by
  refine ⟨?_, ?_, ?_⟩
  · intro h
    subst h
    simp [generate_samples_yaml]
  · intro h1 h2
    subst h1
    subst h2
    simp [generate_samples_yaml]
  · intro h1 h2 hempty
    subst h1
    subst h2
    simp [generate_samples_yaml, hempty]

/-- Witness for C6 amended: the three failure modes on concrete
inputs. -/
theorem claim_C6_amended_witness :
    generate_samples_yaml "/data" false true "bed" [] =
      .error (.fileNotFoundError ("Directory not found: /data"))
    ∧ generate_samples_yaml "/data2" true false "bed" [] =
      .error (.valueError ("Path is not a directory: /data2"))
    ∧ generate_samples_yaml "/data3" true true "bed" [⟨"/data3/a.txt", "a.txt", true⟩] =
      .error (.valueError
        ("No files with extension \x27" ++ normalizeExt "bed" ++
          "\x27 found in /data3")) :=
  ⟨(claim_C6_amended "/data" "bed" false true []).1 rfl,
    (claim_C6_amended "/data2" "bed" true false []).2.1 rfl rfl,
    (claim_C6_amended "/data3" "bed" true true [⟨"/data3/a.txt", "a.txt", true⟩]).2.2
      rfl rfl (by decide)⟩

/-! ## Shape of the flat manifest (C9) -/

theorem keys_dictInsert {β : Type} (k : String) (v : β) (m : List (String × β)) :
    (dictInsert k v m).map Prod.fst =
      if hasKey k m then m.map Prod.fst else m.map Prod.fst ++ [k] := by
  induction m with
  | nil => simp [dictInsert, hasKey]
  | cons e rest ih =>
    obtain ⟨a, b⟩ := e
    by_cases h : a = k
    · simp [dictInsert, hasKey, h]
    · simp only [dictInsert, if_neg h, hasKey, List.map_cons, ih]
      by_cases h2 : hasKey k rest <;> simp [h2]

theorem hasKey_iff_mem_keys {β : Type} (k : String) (m : List (String × β)) :
    hasKey k m = true ↔ k ∈ m.map Prod.fst := by
  induction m with
  | nil => simp [hasKey]
  | cons e rest ih =>
    obtain ⟨a, b⟩ := e
    by_cases h : a = k
    · subst h
      simp [hasKey]
    · simp only [hasKey, if_neg h, List.map_cons, List.mem_cons]
      constructor
      · exact fun hh => Or.inr (ih.mp hh)
      · intro hh
        rcases hh with hh | hh
        · exact absurd hh.symm h
        · exact ih.mpr hh

theorem nodup_keys_dictInsert {β : Type} (k : String) (v : β) (m : List (String × β))
    (h : (m.map Prod.fst).Nodup) : ((dictInsert k v m).map Prod.fst).Nodup := by
  rw [keys_dictInsert]
  cases hk : hasKey k m with
  | true => simpa using h
  | false =>
    have hnm : k ∉ m.map Prod.fst := fun hmem => by
      rw [(hasKey_iff_mem_keys k m).mpr hmem] at hk
      cases hk
    simp only [Bool.false_eq_true, if_false]
    rw [List.nodup_append]
    refine ⟨h, List.nodup_singleton k, ?_⟩
    intro a ha hak
    simp only [List.mem_singleton] at hak
    exact hnm (hak ▸ ha)

theorem nodup_keys_foldl_dictInsert {α β : Type} (f : α → String) (g : α → β)
    (xs : List α) (m0 : List (String × β)) (h : (m0.map Prod.fst).Nodup) :
    ((xs.foldl (fun m x => dictInsert (f x) (g x) m) m0).map Prod.fst).Nodup := by
  induction xs generalizing m0 with
  | nil => simpa using h
  | cons x rest ih =>
    simp only [List.foldl_cons]
    exact ih _ (nodup_keys_dictInsert _ _ _ h)

theorem length_dictInsert_not_hasKey {β : Type} (k : String) (v : β)
    (m : List (String × β)) (h : hasKey k m = false) :
    (dictInsert k v m).length = m.length + 1 := by
  induction m with
  | nil => simp [dictInsert]
  | cons e rest ih =>
    obtain ⟨a, b⟩ := e
    by_cases ha : a = k
    · simp [hasKey, ha] at h
    · simp only [hasKey, if_neg ha] at h
      simp [dictInsert, ha, ih h]

theorem length_foldl_dictInsert {α β : Type} (f : α → String) (g : α → β)
    (xs : List α) :
    ∀ m0 : List (String × β), (xs.map f).Nodup →
      (∀ x ∈ xs, hasKey (f x) m0 = false) →
      (xs.foldl (fun m x => dictInsert (f x) (g x) m) m0).length =
        m0.length + xs.length := by
  induction xs with
  | nil =>
    intro m0 _ _
    simp
  | cons x rest ih =>
    intro m0 hnd hnk
    simp only [List.foldl_cons]
    have hx : hasKey (f x) m0 = false := hnk x (by simp)
    rw [List.map_cons, List.nodup_cons] at hnd
    have hx2 : ∀ y ∈ rest, hasKey (f y) (dictInsert (f x) (g x) m0) = false := by
      intro y hy
      rw [hasKey_dictInsert]
      have hne : ¬(f x = f y) := fun hc => hnd.1 (hc ▸ List.mem_map_of_mem f hy)
      simp [hne, hnk y (List.mem_cons_of_mem _ hy)]
    rw [ih _ hnd.2 hx2, length_dictInsert_not_hasKey _ _ _ hx, List.length_cons]
    omega

theorem any_eq_of_perm {α : Type} {l1 l2 : List α} (h : l1.Perm l2) (p : α → Bool) :
    l1.any p = l2.any p := by
  cases h1 : l1.any p <;> cases h2 : l2.any p
  · rfl
  · rw [List.any_eq_true] at h2
    obtain ⟨x, hx, hpx⟩ := h2
    rw [List.any_eq_false] at h1
    exact absurd hpx (by simp [h1 x (h.mem_iff.mpr hx)])
  · rw [List.any_eq_true] at h1
    obtain ⟨x, hx, hpx⟩ := h1
    rw [List.any_eq_false] at h2
    exact absurd hpx (by simp [h2 x (h.mem_iff.mp hx)])
  · rfl

/-- C9 counterexample: two matching regular files that share the stem
`x` yield a single mapping entry (the later file in path order wins),
not one entry per matching file as the claim states. -/
theorem claim_C9_counterexample :
    (matchingFiles (normalizeExt ".bed")
      [⟨"/r/b/x.bed", "b/x.bed", true⟩, ⟨"/r/a/x.bed", "a/x.bed", true⟩]).length = 2
    ∧ generate_samples_yaml "/r" true true ".bed"
        [⟨"/r/b/x.bed", "b/x.bed", true⟩, ⟨"/r/a/x.bed", "a/x.bed", true⟩] =
      .ok [("x", "/r/b/x.bed")] := by
  refine ⟨by decide, by decide⟩

/-- C9 amended: when the flat builder succeeds, its mapping has
pairwise-distinct keys; every entry stems from a matching regular file
(key = that file's stem, value = its absolute path) — in particular no
entry comes from a non-matching file; a key is present exactly when
some matching file has that stem; and when the matching files' stems
are pairwise distinct the mapping has exactly one entry per matching
file (stem collisions are silently merged, last file in path order
winning). -/
theorem claim_C9_amended (directory file_extension : String) (entries : List FsEntry)
    (m : List (String × String))
    (hok : generate_samples_yaml directory true true file_extension entries = .ok m) :
    ((m.map Prod.fst).Nodup)
    ∧ (∀ k v, (k, v) ∈ m →
        ∃ e ∈ matchingFiles (normalizeExt file_extension) entries,
          k = stemStr e.name ∧ v = e.path)
    ∧ (∀ k, hasKey k m =
        (matchingFiles (normalizeExt file_extension) entries).any
          (fun e => decide (stemStr e.name = k)))
    ∧ (((matchingFiles (normalizeExt file_extension) entries).map
          (fun e => stemStr e.name)).Nodup →
        m.length = (matchingFiles (normalizeExt file_extension) entries).length) := by
  have hperm := List.perm_insertionSort pathLe
    (matchingFiles (normalizeExt file_extension) entries)
  have hm : m = (List.insertionSort pathLe
      (matchingFiles (normalizeExt file_extension) entries)).foldl
      (fun m e => dictInsert (stemStr e.name) e.path m) [] := by
    by_cases he : (matchingFiles (normalizeExt file_extension) entries).isEmpty
    · simp [generate_samples_yaml, he] at hok
    · simp only [generate_samples_yaml, Bool.not_true, Bool.false_eq_true, if_false,
        he, Except.ok.injEq] at hok
      exact hok.symm
  subst hm
  refine ⟨?_, ?_, ?_, ?_⟩
  · exact nodup_keys_foldl_dictInsert _ _ _ [] (by simp)
  · intro k v hmem
    rcases mem_foldl_dictInsert (fun e : FsEntry => stemStr e.name)
        (fun e : FsEntry => e.path) _ [] hmem with h | ⟨e, he, hk, hv⟩
    · simp at h
    · exact ⟨e, hperm.mem_iff.mp he, hk, hv⟩
  · intro k
    rw [hasKey_foldl_dictInsert (fun e : FsEntry => stemStr e.name)
        (fun e : FsEntry => e.path) _ [] k,
      any_eq_of_perm hperm]
    simp [hasKey]
  · intro hnd
    have hnd2 : ((List.insertionSort pathLe
        (matchingFiles (normalizeExt file_extension) entries)).map
        (fun e => stemStr e.name)).Nodup :=
      ((hperm.map (fun e => stemStr e.name)).nodup_iff).mpr hnd
    rw [length_foldl_dictInsert (fun e : FsEntry => stemStr e.name)
        (fun e : FsEntry => e.path) _ [] hnd2 (by intro x _; simp [hasKey]),
      hperm.length_eq]
    simp

/-- Witness for C9 amended: on a directory with one `.bed` file and
one `.txt` file the claim facts evaluate on the concrete output. -/
theorem claim_C9_amended_witness :
    (([("s1", "/r/s1.bed")] : List (String × String)).map Prod.fst).Nodup
    ∧ (∀ k v, (k, v) ∈ ([("s1", "/r/s1.bed")] : List (String × String)) →
        ∃ e ∈ matchingFiles (normalizeExt "bed")
          [⟨"/r/s1.bed", "s1.bed", true⟩, ⟨"/r/s2.txt", "s2.txt", true⟩],
          k = stemStr e.name ∧ v = e.path)
    ∧ (∀ k, hasKey k ([("s1", "/r/s1.bed")] : List (String × String)) =
        (matchingFiles (normalizeExt "bed")
          [⟨"/r/s1.bed", "s1.bed", true⟩, ⟨"/r/s2.txt", "s2.txt", true⟩]).any
          (fun e => decide (stemStr e.name = k)))
    ∧ (((matchingFiles (normalizeExt "bed")
          [⟨"/r/s1.bed", "s1.bed", true⟩, ⟨"/r/s2.txt", "s2.txt", true⟩]).map
          (fun e => stemStr e.name)).Nodup →
        ([("s1", "/r/s1.bed")] : List (String × String)).length =
          (matchingFiles (normalizeExt "bed")
            [⟨"/r/s1.bed", "s1.bed", true⟩, ⟨"/r/s2.txt", "s2.txt", true⟩]).length) :=
  claim_C9_amended "/r" "bed"
    [⟨"/r/s1.bed", "s1.bed", true⟩, ⟨"/r/s2.txt", "s2.txt", true⟩]
    [("s1", "/r/s1.bed")] (by decide)

/-! ## Discovery builder classification (C7, C10) -/

/-- Patient identifier described by the claim: the first two
underscore-delimited tokens of the filename substring starting at the
first occurrence of the patient pattern, joined by an underscore. -/
def bamPatientId (patient_pattern filename : String) : String :=
  let toks := splitOnCharL '_' (dropToMatchL patient_pattern.toList filename.toList)
  String.mk (toks.getD 0 [] ++ '_' :: toks.getD 1 [])

/-- C7: for every filename containing the patient pattern (and whose
post-pattern substring splits into at least two underscore tokens, so
that patient-id extraction does not raise), the discovery builder
derives the patient id from the first two tokens, assigns TUMOR when
the tumor pattern occurs in the filename, otherwise NORMAL when the
normal pattern occurs, otherwise skips the file; filenames without the
patient pattern are skipped; and the two files
`PAT_001_T1_x.sorted.bam` / `PAT_001_N1_x.sorted.bam` with patterns
`PAT_`, `_T`, `_N` land under the single patient key `PAT_001` with
one-element TUMOR and NORMAL lists. -/
theorem claim_C7 (patient_pattern tumor_pattern normal_pattern fname : String)
    (hp : containsL patient_pattern.toList fname.toList = true)
    (htok : 2 ≤ (splitOnCharL '_'
      (dropToMatchL patient_pattern.toList fname.toList)).length) :
    (containsL tumor_pattern.toList fname.toList = true →
      classifyBam patient_pattern tumor_pattern normal_pattern fname =
        .ok (some (bamPatientId patient_pattern fname, "TUMOR")))
    ∧ (containsL tumor_pattern.toList fname.toList = false →
      containsL normal_pattern.toList fname.toList = true →
      classifyBam patient_pattern tumor_pattern normal_pattern fname =
        .ok (some (bamPatientId patient_pattern fname, "NORMAL")))
    ∧ (containsL tumor_pattern.toList fname.toList = false →
      containsL normal_pattern.toList fname.toList = false →
      classifyBam patient_pattern tumor_pattern normal_pattern fname = .ok none)
    ∧ (∀ g : String, containsL patient_pattern.toList g.toList = false →
      classifyBam patient_pattern tumor_pattern normal_pattern g = .ok none)
    ∧ create_patient_bams_from_directory "/d" true "PAT_" "_T" "_N" ".sorted.bam"
        [⟨"/d/PAT_001_T1_x.sorted.bam", "", true⟩,
          ⟨"/d/PAT_001_N1_x.sorted.bam", "", true⟩] =
      .ok [("PAT_001", [("TUMOR", ["/d/PAT_001_T1_x.sorted.bam"]),
        ("NORMAL", ["/d/PAT_001_N1_x.sorted.bam"])])] := by
  simp only [String.toList] at hp htok
  obtain ⟨t0, t1, ts, htoks⟩ :
      ∃ t0 t1 ts, splitOnCharL '_'
        (dropToMatchL patient_pattern.data fname.data) = t0 :: t1 :: ts := by
    cases h : splitOnCharL '_' (dropToMatchL patient_pattern.data fname.data) with
    | nil => rw [h] at htok; simp at htok
    | cons a l =>
      cases l with
      | nil => rw [h] at htok; simp at htok
      | cons b l2 => exact ⟨a, b, l2, rfl⟩
  have hid : bamPatientId patient_pattern fname = String.mk (t0 ++ '_' :: t1) := by
    simp [bamPatientId, String.toList, htoks]
  refine ⟨?_, ?_, ?_, ?_, by decide⟩
  · intro ht
    simp only [String.toList] at ht
    simp [classifyBam, String.toList, hp, htoks, ht, hid]
  · intro ht hn
    simp only [String.toList] at ht hn
    simp [classifyBam, String.toList, hp, htoks, ht, hn, hid]
  · intro ht hn
    simp only [String.toList] at ht hn
    simp [classifyBam, String.toList, hp, htoks, ht, hn]
  · intro g hg
    simp only [String.toList] at hg
    simp [classifyBam, String.toList, hg]

/-- Witness for C7 on the filename `PAT_001_N1_x.sorted.bam`: the
tumor pattern `_T` does not occur, the normal pattern `_N` does, so
the file is classified as NORMAL under the extracted patient id. -/
theorem claim_C7_witness :
    classifyBam "PAT_" "_T" "_N" "PAT_001_N1_x.sorted.bam" =
      .ok (some (bamPatientId "PAT_" "PAT_001_N1_x.sorted.bam", "NORMAL")) :=
  (claim_C7 "PAT_" "_T" "_N" "PAT_001_N1_x.sorted.bam" (by decide) (by decide)).2.1
    (by decide) (by decide)

/-- C10: whenever a filename contains the patient pattern but the
substring starting at the pattern's first occurrence has no underscore
(fewer than two underscore-delimited tokens), indexing the second
split token raises an unhandled `IndexError`, and discovery over a
directory holding such a file aborts with that error instead of
completing. -/
theorem claim_C10 (patient_pattern tumor_pattern normal_pattern fname : String)
    (hp : containsL patient_pattern.toList fname.toList = true)
    (hone : (splitOnCharL '_'
      (dropToMatchL patient_pattern.toList fname.toList)).length < 2) :
    classifyBam patient_pattern tumor_pattern normal_pattern fname = .error .indexError
    ∧ create_patient_bams_from_directory "/d" true "PAT" "_T" "_N" ".sorted.bam"
        [⟨"/d/PATX.sorted.bam", "", true⟩] = .error .indexError := by
  refine ⟨?_, by decide⟩
  simp only [String.toList] at hp hone
  cases h : splitOnCharL '_' (dropToMatchL patient_pattern.data fname.data) with
  | nil => simp [classifyBam, String.toList, hp, h]
  | cons a l =>
    cases l with
    | nil => simp [classifyBam, String.toList, hp, h]
    | cons b l2 =>
      rw [h] at hone
      simp at hone
      omega

/-- Witness for C10 on the filename `PATX.sorted.bam` with patient
pattern `PAT`: the post-pattern substring has no underscore, so the
per-file classification raises `IndexError`. -/
theorem claim_C10_witness :
    classifyBam "PAT" "_T" "_N" "PATX.sorted.bam" = .error .indexError :=
  (claim_C10 "PAT" "_T" "_N" "PATX.sorted.bam" (by decide) (by decide)).1

/-! ## Validator characterization (C8) -/

theorem flatSampleCheck_fst (ex : String → Bool) (samples : List (String × YVal)) :
    (flatSampleCheck ex samples).1 = samples.all (fun kv => isStrVal kv.2) := by
  induction samples with
  | nil => simp [flatSampleCheck]
  | cons kv rest ih =>
    obtain ⟨k, v⟩ := kv
    cases v <;> simp [flatSampleCheck, isStrVal, ih]

theorem tnSampleCheck_fst (ex : String → Bool) (samples : List (String × YVal)) :
    (tnSampleCheck ex samples).1 = samples.all (fun kv => isStrVal kv.2) := by
  induction samples with
  | nil => simp [tnSampleCheck]
  | cons kv rest ih =>
    obtain ⟨k, v⟩ := kv
    cases v <;> simp [tnSampleCheck, isStrVal, ih]

theorem tnCondCheck_fst (ex : String → Bool) (patient_id : String)
    (pdata : List (String × YVal)) :
    (tnCondCheck ex patient_id pdata).1 = pdata.all (fun ckv =>
      match ckv.2 with
      | .dict samples => samples.all (fun skv => isStrVal skv.2)
      | _ => false) := by
  induction pdata with
  | nil => simp [tnCondCheck]
  | cons ckv rest ih =>
    obtain ⟨ct, v⟩ := ckv
    cases v with
    | dict samples =>
      simp only [tnCondCheck, List.all_cons]
      cases hs : (tnSampleCheck ex samples).1 with
      | true =>
        rw [if_pos rfl]
        have := tnSampleCheck_fst ex samples
        rw [hs] at this
        simp [← this, ih]
      | false =>
        rw [if_neg (by simp [hs])]
        have := tnSampleCheck_fst ex samples
        rw [hs] at this
        simp [← this]
    | str s => simp [tnCondCheck, ih]
    | other => simp [tnCondCheck, ih]

theorem tnPatientCheck_fst (ex : String → Bool) (patients : List (String × YVal)) :
    (tnPatientCheck ex patients).1 = patients.all (fun pkv =>
      match pkv.2 with
      | .dict pdata =>
        pdata.all (fun ckv =>
          match ckv.2 with
          | .dict samples => samples.all (fun skv => isStrVal skv.2)
          | _ => false)
      | _ => false) := by
  induction patients with
  | nil => simp [tnPatientCheck]
  | cons pkv rest ih =>
    obtain ⟨pid, v⟩ := pkv
    cases v with
    | dict pdata =>
      simp only [tnPatientCheck, List.all_cons]
      cases hc : (tnCondCheck ex pid pdata).1 with
      | true =>
        rw [if_pos rfl]
        have := tnCondCheck_fst ex pid pdata
        rw [hc] at this
        simp [← this, ih]
      | false =>
        rw [if_neg (by simp [hc])]
        have := tnCondCheck_fst ex pid pdata
        rw [hc] at this
        simp [← this]
    | str s => simp [tnPatientCheck, ih]
    | other => simp [tnPatientCheck, ih]

/-- C8 counterexample: a document whose four levels are all mappings —
hence free of the structural violations enumerated by the claim — but
whose leaf value is not a string makes the tumor/normal validator
return `False` (the path construction inside the advisory existence
check raises, and the handler converts it to failure), even though the
document loaded without error. -/
theorem claim_C8_counterexample :
    claimStructOkTN (.ok (.dict [("SAMPLES",
        .dict [("P", .dict [("TUMOR", .dict [("s", .other)])])])])) = true
    ∧ (validate_tumor_normal_yaml (fun _ => true)
        (.ok (.dict [("SAMPLES",
          .dict [("P", .dict [("TUMOR", .dict [("s", .other)])])])]))).1 = false := by
  refine ⟨by decide, by decide⟩

/-- C8 amended: each validator returns `False` exactly when the
document failed to load, a structural violation occurs (missing
top-level key or a required level not a mapping), or a non-string leaf
path value makes the advisory existence check raise; references to
paths missing on disk and condition labels outside TUMOR/NORMAL only
emit warnings while the validator still returns `True` (the success
flag never depends on the filesystem oracle). -/
theorem claim_C8_amended (ex : String → Bool) (loaded : Except String YVal) :
    (validate_samples_yaml ex loaded).1 = structOkFlat loaded
    ∧ (validate_tumor_normal_yaml ex loaded).1 = structOkTN loaded
    ∧ validate_tumor_normal_yaml (fun _ => false)
        (.ok (.dict [("SAMPLES",
          .dict [("P", .dict [("WEIRD", .dict [("s", .str "/x")])])])])) =
      (true, ["Warning: Unexpected sample type \x27WEIRD\x27 for patient P",
        "Warning: Sample file not found: /x"]) := by
  refine ⟨?_, ?_, by decide⟩
  · cases loaded with
    | error e => rfl
    | ok d =>
      cases d with
      | dict entries =>
        cases hl : lookupA "samples" entries with
        | none => simp [validate_samples_yaml, structOkFlat, hl]
        | some v =>
          cases v with
          | dict samples =>
            simp [validate_samples_yaml, structOkFlat, hl, flatSampleCheck_fst]
          | str s => simp [validate_samples_yaml, structOkFlat, hl]
          | other => simp [validate_samples_yaml, structOkFlat, hl]
      | str s => rfl
      | other => rfl
  · cases loaded with
    | error e => rfl
    | ok d =>
      cases d with
      | dict entries =>
        cases hl : lookupA "SAMPLES" entries with
        | none => simp [validate_tumor_normal_yaml, structOkTN, hl]
        | some v =>
          cases v with
          | dict patients =>
            simp [validate_tumor_normal_yaml, structOkTN, hl, tnPatientCheck_fst]
          | str s => simp [validate_tumor_normal_yaml, structOkTN, hl]
          | other => simp [validate_tumor_normal_yaml, structOkTN, hl]
      | str s => rfl
      | other => rfl

end PureMeth
